import Mathlib

/-!
Verification of `contrib/build-wine/docker/wrapper.cpp`: a command-line
rewriter and process launcher.  The pure string rewriting
(`ReplaceCommandAndPrependArg`), the error-message formatting
(`GetErrorMessage`) and the control flow of `main` are shallowly embedded
below; platform calls (`CreateProcessA`, `GetExitCodeProcess`,
`FormatMessageA`, `GetLastError`) are modelled as oracle parameters, and the
observable behaviour of `main` is modelled as a trace of events plus a final
outcome.  Strings are modelled at the level of character lists.
-/

namespace Wrapper

/-- One step of the quote/escape scanning loop of
`ReplaceCommandAndPrependArg` (wrapper.cpp lines 23-29): given the flags
`(in_quot, in_bs)` and the current character, the flags after the loop body.
When the loop would `break` (space, unquoted, unescaped) the state is
returned unchanged. -/
def stepState (in_quot in_bs : Bool) (ch : Char) : Bool × Bool :=
  if ch == ' ' && !in_quot && !in_bs then (in_quot, in_bs)
  else if ch == '\\' && in_quot then (in_quot, !in_bs)
  else if ch == '"' && !in_bs then (!in_quot, in_bs)
  else if in_bs then (in_quot, false)
  else (in_quot, in_bs)

/-- The scanning loop of `ReplaceCommandAndPrependArg` (wrapper.cpp lines
21-29): walks the command line tracking `in_quot` and `in_bs`, and returns
the index at which it breaks (the first space seen with both flags false),
or the length of the input when no such space exists. -/
def scanAux : List Char → Bool → Bool → Nat → Nat
  | [], _, _, pos => pos
  | ch :: rest, in_quot, in_bs, pos =>
    if ch == ' ' && !in_quot && !in_bs then pos
    else if ch == '\\' && in_quot then scanAux rest in_quot (!in_bs) (pos + 1)
    else if ch == '"' && !in_bs then scanAux rest (!in_quot) in_bs (pos + 1)
    else if in_bs then scanAux rest in_quot false (pos + 1)
    else scanAux rest in_quot in_bs (pos + 1)

/-- The stop position of the scan, starting from the initial state
`in_quot = false`, `in_bs = false`, `pos = 0` (wrapper.cpp lines 21-22). -/
def scanPos (commandLine : List Char) : Nat :=
  scanAux commandLine false false 0

/-- Embedding of `commandLine.substr(pos)` at wrapper.cpp line 30: the tail
of the raw command line from the scan stop position to its end. -/
def cmdTail (commandLine : String) : String :=
  String.mk (commandLine.data.drop (scanPos commandLine.data))

/-- wrapper.cpp lines 18-31: returns
`newCmd + " " + arg + commandLine.substr(pos) + " " + argPost` where `pos`
is the stop position of the quote-aware scan. -/
def ReplaceCommandAndPrependArg (commandLine newCmd arg argPost : String) :
    String :=
  newCmd ++ " " ++ arg ++ cmdTail commandLine ++ " " ++ argPost

/-- The scan state (`in_quot`, `in_bs`) reached after processing the first
`i` characters of the command line from the initial state. -/
def stateAt (commandLine : List Char) (i : Nat) : Bool × Bool :=
  (commandLine.take i).foldl (fun s ch => stepState s.1 s.2 ch) (false, false)

/-- Variant of the scanning loop whose stop condition drops the `!in_bs`
conjunct: it stops at the first space with `in_quot = false`, regardless of
`in_bs`.  Used to state the claim that the two stop conditions agree on all
reachable states. -/
def scanAuxNB : List Char → Bool → Bool → Nat → Nat
  | [], _, _, pos => pos
  | ch :: rest, in_quot, in_bs, pos =>
    if ch == ' ' && !in_quot then pos
    else if ch == '\\' && in_quot then scanAuxNB rest in_quot (!in_bs) (pos + 1)
    else if ch == '"' && !in_bs then scanAuxNB rest (!in_quot) in_bs (pos + 1)
    else if in_bs then scanAuxNB rest in_quot false (pos + 1)
    else scanAuxNB rest in_quot in_bs (pos + 1)

/-- Stop position of the simplified-condition scanner. -/
def scanPosNB (commandLine : List Char) : Nat :=
  scanAuxNB commandLine false false 0

/-- Embedding of `std::isspace` in the default C locale (wrapper.cpp
line 49): space, horizontal tab, newline, vertical tab, form feed,
carriage return. -/
def isCSpace (c : Char) : Bool :=
  c == ' ' || c == '\t' || c == '\n' || c == Char.ofNat 11 ||
    c == Char.ofNat 12 || c == '\r'

/-- The trailing-whitespace trimming loop of wrapper.cpp line 49:
`while (!ret.empty() && std::isspace(ret.back())) ret.pop_back()`. -/
def trimTrailingWS (l : List Char) : List Char :=
  if h : l ≠ [] then
    if isCSpace (l.getLast h) then trimTrailingWS l.dropLast else l
  else l
termination_by l.length
decreasing_by
  simp only [List.length_dropLast]
  exact Nat.sub_lt (List.length_pos.mpr h) Nat.one_pos

/-- Spec-side description of the trim: the message with all trailing
whitespace characters removed. -/
def removeTrailingWhitespace (l : List Char) : List Char :=
  (l.reverse.dropWhile isCSpace).reverse

/-- wrapper.cpp lines 33-56.  The `FormatMessageA` platform call is modelled
by the oracle `sysMsg`: `some m` when the system provides a message `m`
(i.e. `cchMsg > 0`, with `m` the string `(psz, cchMsg)`), `none` when it
does not.  In the first case the trailing-whitespace trim loop runs on the
message; otherwise the fallback string is built with `std::to_string`. -/
def GetErrorMessage (sysMsg : Option String) (dwErrorCode : Nat) : String :=
  match sysMsg with
  | some m => String.mk (trimTrailingWS m.data)
  | none => "Error code (" ++ toString dwErrorCode ++ ")"

/-- Value of `EXIT_FAILURE` from `<cstdlib>`. -/
def EXIT_FAILURE : Nat := 1

/-- Value of `EXIT_SUCCESS` from `<cstdlib>`. -/
def EXIT_SUCCESS : Nat := 0

/-- Observable actions of `main` (wrapper.cpp lines 59-110), in program
order: the `CreateProcessA` call on the rewritten command line, the
`WaitForSingleObject` on the child, a line written to `std::cerr`, and the
two `CloseHandle` calls made by the `Defer` guard. -/
inductive Event where
  | createChild (cmd : String)
  | waitChild
  | stderrLine (s : String)
  | closeProcessHandle
  | closeThreadHandle
deriving DecidableEq, BEq, Repr

/-- How `main` ends: `exitProcess code` for the `ExitProcess` call on the
success path (direct process termination), `returnFromMain code` for the
`return` statements. -/
inductive Outcome where
  | exitProcess (code : Nat)
  | returnFromMain (code : Nat)
deriving DecidableEq, Repr

/-- Oracle for the platform calls made by `main`: whether `CreateProcessA`
succeeds; the `GetLastError` value and `FormatMessageA` reply after a
failed creation; the result of `GetExitCodeProcess` (`some code` on
success, `none` on failure); and the `GetLastError` value and
`FormatMessageA` reply after a failed exit-code retrieval.  Child exit
codes (`DWORD`) are modelled as natural numbers. -/
structure OSBehavior where
  createProcessOk : Bool
  createLastError : Nat
  createSysMsg : Option String
  exitCodeResult : Option Nat
  statusLastError : Nat
  statusSysMsg : Option String

/-- wrapper.cpp lines 59-110, as a trace of events plus an outcome.
Control flow follows the source:

* if `CreateProcessA` fails, report to stderr and `return EXIT_FAILURE`
  (lines 76-90) — no wait, no handle cleanup;
* otherwise wait for the child (line 93), then install the `Defer` guard
  that closes the process handle and then the thread handle (lines 95-99);
* if `GetExitCodeProcess` fails, report to stderr and `return EXIT_FAILURE`
  (lines 102-105); leaving the scope runs the guard, so both `CloseHandle`
  calls happen after the report and before the return;
* otherwise call `ExitProcess(exit_code)` (line 107).  `ExitProcess`
  terminates the process without unwinding the stack, so the guard's
  destructor never runs on this path and the program itself closes neither
  handle; `return EXIT_SUCCESS` (line 109) is unreachable. -/
def mainRun (os : OSBehavior) (prog arg argPost rawCmdLine : String) :
    List Event × Outcome :=
  let cmdBuf := ReplaceCommandAndPrependArg rawCmdLine prog arg argPost
  if os.createProcessOk = false then
    ([Event.createChild cmdBuf,
      Event.stderrLine ("CreateProcess failed for \"" ++ prog ++ "\": " ++
        GetErrorMessage os.createSysMsg os.createLastError)],
     Outcome.returnFromMain EXIT_FAILURE)
  else
    match os.exitCodeResult with
    | none =>
      ([Event.createChild cmdBuf, Event.waitChild,
        Event.stderrLine ("Could not retrieve exit code for subprocess: " ++
          GetErrorMessage os.statusSysMsg os.statusLastError),
        Event.closeProcessHandle, Event.closeThreadHandle],
       Outcome.returnFromMain EXIT_FAILURE)
    | some exit_code =>
      ([Event.createChild cmdBuf, Event.waitChild],
       Outcome.exitProcess exit_code)

/-- Unfolding of one loop iteration: the scanner on `ch :: rest` either
stops at `pos` (stop condition holds) or continues on `rest` from the
stepped state. -/
theorem scanAux_cons (ch : Char) (rest : List Char) (q b : Bool) (pos : Nat) :
    scanAux (ch :: rest) q b pos =
      if (ch == ' ' && !q && !b) = true then pos
      else scanAux rest (stepState q b ch).1 (stepState q b ch).2 (pos + 1) := by
  by_cases h1 : (ch == ' ' && !q && !b) = true
  · simp [scanAux, stepState, h1]
  · by_cases h2 : (ch == '\\' && q) = true
    · simp [scanAux, stepState, h1, h2]
    · by_cases h3 : (ch == '"' && !b) = true
      · simp [scanAux, stepState, h1, h2, h3]
      · by_cases h4 : b = true
        · simp [scanAux, stepState, h1, h2, h3, h4]
        · have hb : b = false := by simpa using h4
          subst hb
          have h3' : (ch == '"') = false := by simpa using h3
          simp [scanAux, stepState, h1, h2, h3']

/-- Characterisation of the scan: it either runs off the end of the input,
or it stops at an index holding a space at which the scan state (started
from `(q, b)`) is `(false, false)`. -/
theorem scanAux_spec (cl : List Char) : ∀ (q b : Bool) (pos : Nat),
    scanAux cl q b pos = pos + cl.length ∨
    ∃ i ch, cl[i]? = some ch ∧ (ch == ' ') = true ∧
      (cl.take i).foldl (fun s c => stepState s.1 s.2 c) (q, b) = (false, false) ∧
      scanAux cl q b pos = pos + i := by
  induction cl with
  | nil => intro q b pos; left; simp [scanAux]
  | cons ch rest ih =>
    intro q b pos
    rw [scanAux_cons]
    by_cases h1 : (ch == ' ' && !q && !b) = true
    · right
      have h1' := h1
      simp only [Bool.and_eq_true, Bool.not_eq_true'] at h1'
      refine ⟨0, ch, by simp, h1'.1.1, ?_, ?_⟩
      · simp [h1'.1.2, h1'.2]
      · simp [h1]
    · rw [if_neg h1]
      rcases ih (stepState q b ch).1 (stepState q b ch).2 (pos + 1) with
        hL | ⟨i, ch', hget, hsp, hst, heq⟩
      · left
        rw [hL]
        simp [List.length_cons]
        omega
      · right
        refine ⟨i + 1, ch', ?_, hsp, ?_, ?_⟩
        · simpa using hget
        · simpa [List.take_succ_cons, List.foldl_cons] using hst
        · rw [heq]; omega

/-- When the first `i` characters contain no space and position `i` holds a
space, `takeWhile (· != ' ')` is exactly the first `i` characters. -/
theorem take_eq_takeWhile (cl : List Char) : ∀ i, (∀ c ∈ cl.take i, c ≠ ' ') →
    cl[i]? = some ' ' → cl.takeWhile (fun c => c != ' ') = cl.take i := by
  induction cl with
  | nil => intro i _ h; simp at h
  | cons ch rest ih =>
    intro i hno hsp
    cases i with
    | zero =>
      have hch : ch = ' ' := by simpa using hsp
      subst hch
      simp [List.takeWhile_cons]
    | succ j =>
      have hch : ch ≠ ' ' := hno ch (by simp [List.take_succ_cons])
      have hrec : rest.takeWhile (fun c => c != ' ') = rest.take j := by
        apply ih j
        · intro c hc
          exact hno c (by simp [List.take_succ_cons]; exact Or.inr hc)
        · simpa using hsp
      simp [List.takeWhile_cons, hch, List.take_succ_cons, hrec]

/-- A list all of whose characters differ from space is its own
`takeWhile (· != ' ')`. -/
theorem takeWhile_eq_self_of_no_space (l : List Char)
    (hall : ∀ c ∈ l, c ≠ ' ') : l.takeWhile (fun c => c != ' ') = l := by
  induction l with
  | nil => rfl
  | cons a t iht =>
    have ha : a ≠ ' ' := hall a (by simp)
    simp only [List.takeWhile_cons, bne_iff_ne, ne_eq, ha, not_false_eq_true,
      if_true, List.cons.injEq, true_and]
    exact iht (fun c hc => hall c (by simp [hc]))

/-- One scanner step preserves the invariant `in_bs → in_quot`. -/
theorem stepState_inv (q b : Bool) (ch : Char) (h : b = true → q = true) :
    (stepState q b ch).2 = true → (stepState q b ch).1 = true := by
  cases q with
  | true => simp [stepState]; split_ifs <;> simp_all
  | false =>
    cases b with
    | true => exact absurd (h rfl) (by simp)
    | false => simp [stepState]; split_ifs <;> simp_all

/-- Folding scanner steps over any list preserves `in_bs → in_quot`. -/
theorem foldl_step_inv (l : List Char) : ∀ s : Bool × Bool,
    (s.2 = true → s.1 = true) →
    ((l.foldl (fun s ch => stepState s.1 s.2 ch) s).2 = true →
      (l.foldl (fun s ch => stepState s.1 s.2 ch) s).1 = true) := by
  induction l with
  | nil => intro s h; simpa using h
  | cons ch rest ih =>
    intro s h
    simp only [List.foldl_cons]
    exact ih (stepState s.1 s.2 ch) (stepState_inv s.1 s.2 ch h)

/-- Unfolding of one iteration of the simplified-condition scanner. -/
theorem scanAuxNB_cons (ch : Char) (rest : List Char) (q b : Bool) (pos : Nat) :
    scanAuxNB (ch :: rest) q b pos =
      if (ch == ' ' && !q) = true then pos
      else scanAuxNB rest (stepState q b ch).1 (stepState q b ch).2 (pos + 1) := by
  by_cases h1 : (ch == ' ' && !q) = true
  · simp [scanAuxNB, h1]
  · have hb1 : (ch == ' ' && !q) = false := by simpa using h1
    by_cases h2 : (ch == '\\' && q) = true
    · simp [scanAuxNB, stepState, hb1, h2]
    · by_cases h3 : (ch == '"' && !b) = true
      · simp [scanAuxNB, stepState, hb1, h2, h3]
      · by_cases h4 : b = true
        · simp [scanAuxNB, stepState, hb1, h2, h3, h4]
        · have hb : b = false := by simpa using h4
          subst hb
          have h3' : (ch == '"') = false := by simpa using h3
          simp [scanAuxNB, stepState, hb1, h2, h3']

/-- From any state satisfying `in_bs → in_quot`, the original scanner and
the simplified-condition scanner agree. -/
theorem scanAux_eq_scanAuxNB (cl : List Char) : ∀ (q b : Bool) (pos : Nat),
    (b = true → q = true) → scanAux cl q b pos = scanAuxNB cl q b pos := by
  induction cl with
  | nil => intro q b pos _; simp [scanAux, scanAuxNB]
  | cons ch rest ih =>
    intro q b pos hinv
    rw [scanAux_cons, scanAuxNB_cons]
    have hcond : (ch == ' ' && !q && !b) = (ch == ' ' && !q) := by
      cases q with
      | true => simp
      | false =>
        have hb : b = false := by
          cases b with
          | true => exact absurd (hinv rfl) (by simp)
          | false => rfl
        simp [hb]
    rw [hcond]
    by_cases h1 : (ch == ' ' && !q) = true
    · simp [h1]
    · simp only [if_neg h1]
      exact ih _ _ _ (stepState_inv q b ch hinv)

/-- The pop-back trimming loop, applied to a reversed list, drops the
leading whitespace of the unreversed list. -/
theorem trimTrailingWS_reverse (r : List Char) :
    trimTrailingWS r.reverse = (r.dropWhile isCSpace).reverse := by
  induction r with
  | nil => simp [trimTrailingWS]
  | cons c r' ih =>
    rw [List.reverse_cons, trimTrailingWS]
    have hne : r'.reverse ++ [c] ≠ [] := by simp
    rw [dif_pos hne]
    by_cases hc : isCSpace c = true
    · rw [if_pos (by simpa [List.getLast_concat] using hc)]
      rw [List.dropLast_concat, ih]
      simp [List.dropWhile_cons, hc]
    · rw [if_neg (by simpa [List.getLast_concat] using hc)]
      simp [List.dropWhile_cons, hc]

/-- The trimming loop of wrapper.cpp line 49 computes exactly the removal
of all trailing whitespace. -/
theorem trimTrailingWS_eq (l : List Char) :
    trimTrailingWS l = removeTrailingWhitespace l := by
  have h := trimTrailingWS_reverse l.reverse
  simpa [removeTrailingWhitespace] using h

/-- C1 counterexample: with an empty trailing argument (the embedding of
the no-trailing-argument variant), `ReplaceCommandAndPrependArg` applied to
program name `foo.exe`, leading argument `--mode=x` and raw command line
`orig.exe a b c` does NOT return exactly `foo.exe --mode=x a b c`: line 30
appends `" " + argPost` unconditionally, so an extra trailing space is
produced. -/
theorem c1_no_trailing_counterexample :
    ReplaceCommandAndPrependArg "orig.exe a b c" "foo.exe" "--mode=x" "" ≠
      "foo.exe --mode=x a b c" := by decide

/-- C1 amended: with an empty trailing argument, given replacement program
`foo.exe`, leading argument `--mode=x` and raw command line
`orig.exe a b c`, the result is `foo.exe --mode=x a b c ` — the expected
string followed by exactly one trailing space coming from the
unconditional `" " + argPost` separator. -/
theorem c1_no_trailing_amended :
    ReplaceCommandAndPrependArg "orig.exe a b c" "foo.exe" "--mode=x" "" =
      "foo.exe --mode=x a b c " := by decide

/-- C2 counterexample: on the success path (child created, exit code
retrieved), the program does not close either handle even once: `main`
terminates via `ExitProcess`, which does not unwind the stack, so the
`Defer` guard installed at line 95 never runs.  The concrete run has child
exit code 0. -/
theorem c2_success_path_counterexample :
    ¬ ((mainRun ⟨true, 0, none, some 0, 0, none⟩ "foo.exe" "--mode=x" ""
          "orig.exe a b c").1.count Event.closeProcessHandle = 1 ∧
       (mainRun ⟨true, 0, none, some 0, 0, none⟩ "foo.exe" "--mode=x" ""
          "orig.exe a b c").1.count Event.closeThreadHandle = 1) := by decide

/-- C2 amended: past successful child creation, on the error path where
exit-status retrieval fails the scope guard closes the process handle and
then the thread handle, exactly once each, after the failed read has been
reported and before returning; on the success path `main` terminates via
`ExitProcess` before the scope guard runs, so the program itself closes
neither handle (they are reclaimed by the operating system at process
termination). -/
theorem c2_handle_release_amended :
    ∀ (os : OSBehavior) (prog arg argPost raw : String),
    os.createProcessOk = true →
    (os.exitCodeResult = none →
      (mainRun os prog arg argPost raw).1 =
        [Event.createChild (ReplaceCommandAndPrependArg raw prog arg argPost),
         Event.waitChild,
         Event.stderrLine ("Could not retrieve exit code for subprocess: " ++
           GetErrorMessage os.statusSysMsg os.statusLastError),
         Event.closeProcessHandle, Event.closeThreadHandle]) ∧
    (∀ n, os.exitCodeResult = some n →
      (mainRun os prog arg argPost raw).1 =
        [Event.createChild (ReplaceCommandAndPrependArg raw prog arg argPost),
         Event.waitChild] ∧
      (mainRun os prog arg argPost raw).2 = Outcome.exitProcess n) := by
  intro os prog arg argPost raw h
  constructor
  · intro hnone
    simp [mainRun, h, hnone]
  · intro n hsome
    constructor
    · simp [mainRun, h, hsome]
    · simp [mainRun, h, hsome]

/-- C2 witness: a concrete failed-retrieval run closes each handle exactly
once, and a concrete success run closes no handle. -/
theorem c2_handle_release_witness :
    (mainRun ⟨true, 0, none, none, 5, none⟩ "p" "a" "q" "orig x").1.count
      Event.closeProcessHandle = 1 ∧
    (mainRun ⟨true, 0, none, none, 5, none⟩ "p" "a" "q" "orig x").1.count
      Event.closeThreadHandle = 1 ∧
    (mainRun ⟨true, 0, none, some 7, 0, none⟩ "p" "a" "q" "orig x").1.count
      Event.closeProcessHandle = 0 := by
  have h1 := (c2_handle_release_amended ⟨true, 0, none, none, 5, none⟩
    "p" "a" "q" "orig x" rfl).1 rfl
  have h2 := ((c2_handle_release_amended ⟨true, 0, none, some 7, 0, none⟩
    "p" "a" "q" "orig x" rfl).2 7 rfl).1
  refine ⟨?_, ?_, ?_⟩
  · rw [h1]; decide
  · rw [h1]; decide
  · rw [h2]; decide

/-- C3: if child creation succeeds and `GetExitCodeProcess` yields `n`, the
parent terminates with exactly `n` — for every `n`, including 0 — and does
so via `ExitProcess` (the `exitProcess` outcome), never by returning from
`main`. -/
theorem c3_exit_code_propagation :
    ∀ (os : OSBehavior) (prog arg argPost raw : String) (n : Nat),
    os.createProcessOk = true → os.exitCodeResult = some n →
    (mainRun os prog arg argPost raw).2 = Outcome.exitProcess n ∧
    ∀ m, (mainRun os prog arg argPost raw).2 ≠ Outcome.returnFromMain m := by
  intro os prog arg argPost raw n h1 h2
  constructor
  · simp [mainRun, h1, h2]
  · intro m
    simp [mainRun, h1, h2]

/-- C3 witness: a concrete success run with child exit code 0 terminates
via `ExitProcess 0`. -/
theorem c3_witness :
    (mainRun ⟨true, 0, none, some 0, 0, none⟩ "p" "a" "q" "c").2 =
      Outcome.exitProcess 0 :=
  (c3_exit_code_propagation ⟨true, 0, none, some 0, 0, none⟩ "p" "a" "q" "c" 0
    rfl rfl).1

/-- C4: for every input, `ReplaceCommandAndPrependArg` returns the
concatenation of the replacement program path, a single space, the leading
fixed argument, the raw command line's substring from the scan stop
position to its end, a single space, and the trailing fixed argument; in
particular with trailing argument `--done`, program `foo.exe`, leading
argument `--mode=x` and raw command line `orig.exe a b c` the result is
`foo.exe --mode=x a b c --done`. -/
theorem c4_output_format :
    (∀ commandLine newCmd arg argPost : String,
      ReplaceCommandAndPrependArg commandLine newCmd arg argPost =
        newCmd ++ " " ++ arg ++ cmdTail commandLine ++ " " ++ argPost) ∧
    ReplaceCommandAndPrependArg "orig.exe a b c" "foo.exe" "--mode=x" "--done" =
      "foo.exe --mode=x a b c --done" :=
  ⟨fun _ _ _ _ => rfl, by decide⟩

/-- C5: for every raw command line whose first (scanner-skipped) token
contains no embedded space, the scan stops exactly at the end of the first
whitespace-delimited token, and the tail is the raw command line with
exactly that token removed — the first token concatenated with the tail
(leading separator included in the tail) reconstitutes the raw command
line. -/
theorem c5_tail_removes_first_token : ∀ commandLine : String,
    (∀ c ∈ commandLine.data.take (scanPos commandLine.data), c ≠ ' ') →
    scanPos commandLine.data =
      (commandLine.data.takeWhile (fun c => c != ' ')).length ∧
    commandLine.data.takeWhile (fun c => c != ' ') ++
      (cmdTail commandLine).data = commandLine.data := by
  intro s hno
  rcases scanAux_spec s.data false false 0 with hL | ⟨i, ch, hget, hsp, _, heq⟩
  · have hpos : scanPos s.data = s.data.length := by simpa [scanPos] using hL
    have hta : List.take (scanPos s.data) s.data = s.data := by
      rw [hpos, List.take_length]
    have htw : s.data.takeWhile (fun c => c != ' ') = s.data :=
      takeWhile_eq_self_of_no_space s.data
        (fun c hc => hno c (by rw [hta]; exact hc))
    constructor
    · rw [htw, hpos]
    · rw [htw]
      simp [cmdTail, hpos]
  · have hpos : scanPos s.data = i := by simpa [scanPos] using heq
    have hch : ch = ' ' := by simpa using hsp
    subst hch
    have htw := take_eq_takeWhile s.data i (by rw [hpos] at hno; exact hno) hget
    have hi : i < s.data.length := by
      rcases List.getElem?_eq_some.mp hget with ⟨h, _⟩
      exact h
    constructor
    · rw [htw, hpos, List.length_take]
      omega
    · rw [htw]
      simp only [cmdTail, hpos]
      exact List.take_append_drop i s.data

/-- C5 witness: on `orig.exe a b c` the scan stops after `orig.exe` and the
tail ` a b c` is the raw command line minus the first token. -/
theorem c5_witness :
    scanPos "orig.exe a b c".data =
      ("orig.exe a b c".data.takeWhile (fun c => c != ' ')).length ∧
    "orig.exe a b c".data.takeWhile (fun c => c != ' ') ++
      (cmdTail "orig.exe a b c").data = "orig.exe a b c".data :=
  c5_tail_removes_first_token "orig.exe a b c" (by decide)

/-- C6: on the raw command line `"C:\my app.exe" --flag`, the scanner does
not stop at the space embedded inside the quotes (index 6); it stops at
index 15, and the computed tail is ` --flag`. -/
theorem c6_quoted_first_token :
    scanPos "\"C:\\my app.exe\" --flag".data ≠ 6 ∧
    scanPos "\"C:\\my app.exe\" --flag".data = 15 ∧
    cmdTail "\"C:\\my app.exe\" --flag" = " --flag" :=
  ⟨by decide, by decide, by decide⟩

/-- C7: the scan is total and in-bounds — its stop position never exceeds
the input length, so the `substr(pos)` at line 30 is always valid and a
string is always produced, with no validation of matching quotes — and for
every raw command line with no space that is simultaneously outside quotes
and outside the escape state, the computed tail is empty. -/
theorem c7_total_and_empty_tail : ∀ commandLine : String,
    scanPos commandLine.data ≤ commandLine.data.length ∧
    ((∀ i, i < commandLine.data.length → commandLine.data[i]? = some ' ' →
        stateAt commandLine.data i ≠ (false, false)) →
      cmdTail commandLine = "") := by
  intro s
  rcases scanAux_spec s.data false false 0 with hL | ⟨i, ch, hget, hsp, hst, heq⟩
  · have hpos : scanPos s.data = s.data.length := by simpa [scanPos] using hL
    constructor
    · rw [hpos]
    · intro _
      show String.mk (List.drop (scanPos s.data) s.data) = ""
      rw [hpos, List.drop_length]
  · have hpos : scanPos s.data = i := by simpa [scanPos] using heq
    have hch : ch = ' ' := by simpa using hsp
    subst hch
    have hi : i < s.data.length := by
      rcases List.getElem?_eq_some.mp hget with ⟨h, _⟩
      exact h
    constructor
    · rw [hpos]
      exact Nat.le_of_lt hi
    · intro hno
      exact absurd hst (hno i hi hget)

/-- C7 witness: `"a b"` has no unquoted space (the only space is inside
quotes), so the scan runs to the end and the tail is empty. -/
theorem c7_witness :
    scanPos "\"a b\"".data ≤ "\"a b\"".data.length ∧ cmdTail "\"a b\"" = "" :=
  ⟨(c7_total_and_empty_tail "\"a b\"").1,
   (c7_total_and_empty_tail "\"a b\"").2 (by decide)⟩

/-- C8: when child creation fails, the trace is exactly the creation
attempt followed by one stderr line of the form
`CreateProcess failed for "<prog>": <message>` — which contains the literal
replacement program path — and the parent returns the generic non-zero
failure status `EXIT_FAILURE`, with no wait and no handle cleanup. -/
theorem c8_create_failure : ∀ (os : OSBehavior) (prog arg argPost raw : String),
    os.createProcessOk = false →
    (mainRun os prog arg argPost raw).1 =
      [Event.createChild (ReplaceCommandAndPrependArg raw prog arg argPost),
       Event.stderrLine ("CreateProcess failed for \"" ++ prog ++ "\": " ++
         GetErrorMessage os.createSysMsg os.createLastError)] ∧
    (mainRun os prog arg argPost raw).2 = Outcome.returnFromMain EXIT_FAILURE ∧
    EXIT_FAILURE ≠ 0 := by
  intro os prog arg argPost raw h
  refine ⟨by simp [mainRun, h], by simp [mainRun, h], by decide⟩

/-- C8 witness: a concrete failing creation (error code 2, no system
message) produces exactly the diagnostic line containing `foo.exe` and the
non-zero return status 1. -/
theorem c8_witness :
    (mainRun ⟨false, 2, none, none, 0, none⟩ "foo.exe" "--mode=x" "--v"
        "orig.exe a").1 =
      [Event.createChild "foo.exe --mode=x a --v",
       Event.stderrLine "CreateProcess failed for \"foo.exe\": Error code (2)"] ∧
    (mainRun ⟨false, 2, none, none, 0, none⟩ "foo.exe" "--mode=x" "--v"
        "orig.exe a").2 = Outcome.returnFromMain 1 ∧ (1 : Nat) ≠ 0 := by
  have h := c8_create_failure ⟨false, 2, none, none, 0, none⟩ "foo.exe"
    "--mode=x" "--v" "orig.exe a" rfl
  exact ⟨h.1.trans (by decide), h.2.1, h.2.2⟩

/-- C9: for every error code, when the system provides a message
`GetErrorMessage` returns it with all trailing whitespace (including
newlines) removed, and otherwise returns exactly
`Error code (` followed by the decimal rendering of the code followed by
`)`. -/
theorem c9_error_message : ∀ (sysMsg : Option String) (code : Nat),
    (∀ m, sysMsg = some m →
      GetErrorMessage sysMsg code = String.mk (removeTrailingWhitespace m.data)) ∧
    (sysMsg = none →
      GetErrorMessage sysMsg code = "Error code (" ++ toString code ++ ")") := by
  intro sysMsg code
  constructor
  · intro m hm
    subst hm
    simp [GetErrorMessage, trimTrailingWS_eq]
  · intro h
    subst h
    rfl

/-- C9 witness: a system message with trailing `. \r\n` whitespace is
trimmed, and the fallback for code 5 is `Error code (5)`. -/
theorem c9_witness :
    GetErrorMessage (some "Access denied. \r\n") 5 = "Access denied." ∧
    GetErrorMessage none 5 = "Error code (5)" := by
  constructor
  · have h := (c9_error_message (some "Access denied. \r\n") 5).1
      "Access denied. \r\n" rfl
    rw [h]; decide
  · have h := (c9_error_message none 5).2 rfl
    rw [h]; decide

/-- C10: at every position of the scan the flag `in_bs` can be true only
when `in_quot` is true, and consequently the scanner is unchanged when its
stop condition `space AND not in_quot AND not in_bs` is replaced by
`space AND not in_quot` — so the scanner never stops at a space while
inside quotes for lack of the `!in_bs` conjunct. -/
theorem c10_scan_invariant : ∀ cl : List Char,
    (∀ i, (stateAt cl i).2 = true → (stateAt cl i).1 = true) ∧
    scanPos cl = scanPosNB cl := by
  intro cl
  constructor
  · intro i
    exact foldl_step_inv (cl.take i) (false, false) (by simp)
  · exact scanAux_eq_scanAuxNB cl false false 0 (by simp)

/-- C10 witness: after `"a\` (an escape pending inside quotes) both flags
are true — the invariant yields `in_quot = true` from `in_bs = true` — and
on `"a b" c` the two stop conditions give the same stop position. -/
theorem c10_witness :
    (stateAt "\"a\\b".data 3).1 = true ∧
    scanPos "\"a b\" c".data = scanPosNB "\"a b\" c".data :=
  ⟨(c10_scan_invariant "\"a\\b".data).1 3 (by decide),
   (c10_scan_invariant "\"a b\" c".data).2⟩

end Wrapper
